import Mathlib

/-!
Verification development for the `tokenizer.js` widget (ashubham/tokenizer.js).

Shallow embedding of the parts of the source relevant to the claims:

* `src/unnamed/part_002` — the `Tokenizer` class (renderer `classify`,
  `getInnerText`, `getNumTokens`, `tokenizeDisplay`, `fixSavedSelection`,
  `selectNodeByIdx`, `getTokenPosition`, the rxjs change pipeline in
  `setupOnChange`, the keydown helper `handleSpacesAtTokenEndings`).
* `src/unnamed/part_001` — the caret utilities (`getCaretPosition`,
  `getCaretNode`, `isCaretAtTheEndOfCompleteToken`, `restoreSelection`,
  `setCaretAtNodeOffset`, `getNodeCoordinate`, `classes`).
* the browser-quirks capability table (`separatorTemplate`, `initTokenTpl`,
  `getTokenTemplate`, `shouldReplaceNWSP`) that sits after the README in
  `src/README.md`.

DOM state is modelled explicitly: the widget's element children are a list of
`Element` records (class attribute string, `data-token-index` attribute, the
serialized inner markup and the text content); the native selection is a
value of type `SelectionM`.  JavaScript `undefined`/`null` becomes `Option`,
JS exceptions (`TypeError` on a null/undefined property access,
`IndexSizeError` from `Range.setStart`) become `Except JsErr`.
-/

namespace Tokenizer

/-- The browsers enumerated by `src/src/browser.ts`; detection of an unknown
browser falls back to `chrome` there, so `chrome` is the default row. -/
inductive Browsers where
  | chrome
  | firefox
  | safari
  | edge
  | ie
  | phantom
deriving DecidableEq, BEq, Repr

/-- `DisplayToken` from `tokenizer-config` (second half of part_001). -/
structure DisplayToken where
  value : String
  className : String
  isIncomplete : Bool
  isExtensible : Bool
deriving DecidableEq, Repr

/-- Bounding rectangle, as produced by `getBoundingClientRect`. -/
structure Rect where
  top : Int
  left : Int
  width : Int
  height : Int
deriving DecidableEq, Repr

/-- `Position` from tokenizer-utils (part_001). -/
structure Position where
  top : Int
  left : Int
  bottom : Int
  right : Int
deriving DecidableEq, Repr

/-- A rendered element child of the widget container.  `classAttr` is the
full `class` attribute string, `dataIdx` the `data-token-index` attribute,
`inner` the serialized inner markup (escaped), `textContent` the DOM
`textContent` (unescaped).  `rect` is the layout rectangle used by
`getBoundingClientRect`-based operations. -/
structure Element where
  tag : String
  dataIdx : Option Nat
  classAttr : String
  inner : String
  textContent : String
  rect : Rect := ⟨0, 0, 0, 0⟩
deriving DecidableEq, Repr

/-- The zero-width space `String.fromCharCode(8203)`. -/
def zwsp : Char := '​'

/-- The zero-width space as a one-character string. -/
def zwspStr : String := String.singleton zwsp

/-- lodash `escape`: the five HTML-significant characters become entities. -/
def escapeChar (c : Char) : String :=
  if c = '&' then "&amp;"
  else if c = '<' then "&lt;"
  else if c = '>' then "&gt;"
  else if c = '\"' then "&quot;"
  else if c = '\'' then "&#39;"
  else String.singleton c

/-- lodash `escape` on a whole string. -/
def escapeJs (s : String) : String :=
  String.join (s.data.map escapeChar)

/-- JavaScript `Array.prototype.join(' ')`. -/
def joinSp : List String → String
  | [] => ""
  | [v] => v
  | v :: vs => v ++ " " ++ joinSp vs

/-- The character class of the JS regexp `\s` (WhiteSpace ∪ LineTerminator).
Note U+200B is *not* JS whitespace. -/
def jsWS (c : Char) : Bool :=
  c = ' ' || c = '\t' || c = '\n' || c = '\r' ||
  c = '\u000B' || c = '\u000C' || c = ' ' || c = ' ' ||
  (' ' ≤ c && c ≤ ' ') || c = ' ' || c = ' ' ||
  c = ' ' || c = ' ' || c = '　' || c = '﻿'

/-- JavaScript `String.prototype.trim` (strips JS whitespace at both ends). -/
def jsTrim (s : String) : String :=
  ⟨((s.data.dropWhile jsWS).reverse.dropWhile jsWS).reverse⟩

/-- `.replace(/\s/g, ' ')`: every JS-whitespace character becomes a space. -/
def jsWsToSpace (s : String) : String :=
  ⟨s.data.map (fun c => if jsWS c then ' ' else c)⟩

/-- `.replace(/​/g, '')`: drop all zero-width spaces. -/
def stripZwsp (s : String) : String :=
  ⟨s.data.filter (fun c => c ≠ zwsp)⟩

/-- Helper for `replaceFirst`: replace the first occurrence of the
(non-empty) pattern in the character list. -/
def replFirstAux (pat repl : List Char) : List Char → List Char
  | [] => []
  | c :: cs =>
    if (c :: cs).take pat.length = pat then repl ++ cs.drop (pat.length - 1)
    else c :: replFirstAux pat repl cs

/-- JavaScript `String.prototype.replace(pat, repl)` with a *string*
(non-empty) pattern: only the first occurrence is replaced. -/
def replaceFirst (s pat repl : String) : String :=
  ⟨replFirstAux pat.data repl.data s.data⟩

/-- Split a character list into its maximal space-free runs (the word list
backing `classList`).  `acc` holds the current word, reversed. -/
def wordsAux : List Char → List Char → List String
  | acc, [] => if acc.isEmpty then [] else [⟨acc.reverse⟩]
  | acc, c :: cs =>
    if c = ' ' then
      if acc.isEmpty then wordsAux [] cs else ⟨acc.reverse⟩ :: wordsAux [] cs
    else wordsAux (c :: acc) cs

/-- The entries of a `classList` given the `class` attribute string. -/
def classWords (attr : String) : List String :=
  wordsAux [] attr.data

/-- `classList.contains`. -/
def hasClassStr (attr c : String) : Bool :=
  (classWords attr).contains c

/-- `classList.add`: append the class unless already present. -/
def classListAdd (attr c : String) : String :=
  if hasClassStr attr c then attr
  else if attr = "" then c else attr ++ " " ++ c

/-- `classList.remove`: drop the class, normalizing separators. -/
def classListRemove (attr c : String) : String :=
  joinSp ((classWords attr).filter (fun p => p ≠ c))

/-- `shouldReplaceNWSP` from the browser-quirks table: the browsers whose
separators contain a zero-width space. -/
def shouldReplaceNWSP (b : Browsers) : Bool :=
  b == .firefox || b == .safari || b == .edge || b == .ie

/-- The content-node tag per browser (`getTokenTemplate`): IE uses `span`,
everyone else `div`. -/
def tokenTag (b : Browsers) : String :=
  if b == .ie then "span" else "div"

/-- `separatorTemplate` as a parsed element: Chrome's separator is an empty
`div.separator`; IE a `span.separator` holding a zero-width space; the rest
a `div.separator` holding a zero-width space. -/
def sepNode (b : Browsers) : Element :=
  if b == .chrome then
    { tag := "div", dataIdx := none, classAttr := "separator",
      inner := "", textContent := "" }
  else
    { tag := tokenTag b, dataIdx := none, classAttr := "separator",
      inner := "&#8203;", textContent := zwspStr }

/-- `initTokenTpl` as a parsed element. -/
def initNode (b : Browsers) : Element :=
  { tag := tokenTag b, dataIdx := none, classAttr := "init-token",
    inner := "", textContent := "" }

/-- The class string built in `classify`: `token <className>` plus
` extensible` when extensible, plus ` incomplete` when incomplete. -/
def tokenClassStr (t : DisplayToken) : String :=
  "token " ++ t.className ++
    (if t.isExtensible then " extensible" else "") ++
    (if t.isIncomplete then " incomplete" else "")

/-- The content node produced for token `t` at index `i`
(`getTokenTemplate(i, tokenClass, escape(value))` as parsed by the DOM). -/
def contentNode (b : Browsers) (i : Nat) (t : DisplayToken) : Element :=
  { tag := tokenTag b, dataIdx := some i, classAttr := tokenClassStr t,
    inner := escapeJs t.value, textContent := t.value }

/-- `Tokenizer.classify` at the node level: each token renders to its content
node, every complete token is followed by one separator node. -/
def classifyNodesGo (b : Browsers) : Nat → List DisplayToken → List Element
  | _, [] => []
  | i, t :: ts =>
    if t.isIncomplete then contentNode b i t :: classifyNodesGo b (i + 1) ts
    else contentNode b i t :: sepNode b :: classifyNodesGo b (i + 1) ts

/-- The children of the widget element after `innerHTML = classify(tokens)`:
the empty list renders the empty-state template `initTokenTpl`. -/
def classifyNodes (b : Browsers) (tokens : List DisplayToken) : List Element :=
  if tokens.length = 0 then [initNode b] else classifyNodesGo b 0 tokens

/-- `getTokenTemplate` as a string:
`<div data-token-index="i" class="cls">value</div>` (span on IE). -/
def tokenTemplateStr (b : Browsers) (i : Nat) (cls v : String) : String :=
  "<" ++ tokenTag b ++ (" data-token-index=\"" ++ toString i ++ "\"") ++
    " class=\"" ++ cls ++ "\">" ++ v ++ "</" ++ tokenTag b ++ ">"

/-- `separatorTemplate` as a string. -/
def separatorTemplateStr (b : Browsers) : String :=
  if b == .chrome then "<div class=\"separator\"></div>"
  else "<" ++ tokenTag b ++ " class=\"separator\">&#8203;</" ++ tokenTag b ++ ">"

/-- `initTokenTpl` as a string. -/
def initTokenTplStr (b : Browsers) : String :=
  "<" ++ tokenTag b ++ " class=\"init-token\"></" ++ tokenTag b ++ ">"

/-- The string built by `classify`'s `.map(...).join('')`. -/
def classifyGo (b : Browsers) : Nat → List DisplayToken → String
  | _, [] => ""
  | i, t :: ts =>
    (if t.isIncomplete then
       tokenTemplateStr b i (tokenClassStr t) (escapeJs t.value)
     else
       tokenTemplateStr b i (tokenClassStr t) (escapeJs t.value) ++
         separatorTemplateStr b) ++ classifyGo b (i + 1) ts

/-- `Tokenizer.classify`, string level (part_002 lines 606-624). -/
def classify (b : Browsers) (tokens : List DisplayToken) : String :=
  if tokens.length = 0 then initTokenTplStr b else classifyGo b 0 tokens

/-- Browser serialization of one element back to markup (used for
`el.innerHTML` reads).  The tag is stored in the element itself, so this is
browser-independent. -/
def serializeElem (e : Element) : String :=
  "<" ++ e.tag ++
    (match e.dataIdx with
     | some i => " data-token-index=\"" ++ toString i ++ "\""
     | none => "") ++
    " class=\"" ++ e.classAttr ++ "\">" ++ e.inner ++ "</" ++ e.tag ++ ">"

/-- `el.innerHTML` of the current children. -/
def serializeChildren (children : List Element) : String :=
  String.join (children.map serializeElem)

/-- `Tokenizer.getNumTokens` (part_002 lines 191-193): the raw
`el.children.length` — this counts separator nodes too. -/
def getNumTokens (children : List Element) : Nat :=
  children.length

/-- `Tokenizer.getInnerText` (part_002 lines 159-176): map children to
`textContent`, keep non-empty texts that are not a lone zero-width space,
join with spaces, normalize whitespace, and on NWSP browsers strip
zero-width spaces.  When the element has no element children the source
falls back to `el.textContent`; rendered states always have at least one
element child (`classify` never returns an empty string), so the fallback is
modelled as the container's loose text, here empty. -/
def getInnerText (b : Browsers) (children : List Element) : String :=
  let text :=
    if children.length ≠ 0 then
      jsWsToSpace (joinSp
        ((children.map (fun e => e.textContent)).filter
          (fun t => t ≠ "" && t ≠ zwspStr)))
    else ""
  if shouldReplaceNWSP b then stripZwsp text else text

/-! ## Selection / caret model (tokenizer-utils, part_001)

The native selection is modelled as an optional anchor: `none` stands for an
unresolvable selection (`rangeCount === 0`, or a null `anchorNode`).  An
anchor points either at the container element itself, at one of its element
children, or at the text node inside child `i`, together with the native
offset. -/

/-- A node reference inside the widget container. -/
inductive SelRef where
  | containerRef
  | childRef (i : Nat)
  | textRef (i : Nat)
deriving DecidableEq, BEq, Repr

/-- The (collapsed) native selection: `none` when there is no active range
or no anchor node. -/
structure SelectionM where
  range : Option (SelRef × Nat)
deriving DecidableEq, Repr

/-- JS exceptions that the modelled operations can raise. -/
inductive JsErr where
  | typeErrorNullDeref
  | indexSizeError
deriving DecidableEq, Repr

/-- `element.childNodes.length` in our model: a single text child when the
text content is non-empty, none otherwise. -/
def childNodesCount (e : Element) : Nat :=
  if e.textContent.length = 0 then 0 else 1

/-- `textContent` of a referenced node. -/
def textContentOf (children : List Element) : SelRef → String
  | .containerRef => String.join (children.map (fun e => e.textContent))
  | .childRef i => ((children.get? i).map (fun e => e.textContent)).getD ""
  | .textRef i => ((children.get? i).map (fun e => e.textContent)).getD ""

/-- `shouldDoSeparatorAllowance` (part_001 lines 217-220): Chrome only, and
only for elements whose `classList` contains `separator`. -/
def sepAllowanceRef (b : Browsers) (children : List Element) : SelRef → Bool
  | .childRef i =>
    b == .chrome &&
      (((children.get? i).map (fun e => hasClassStr e.classAttr "separator")).getD false)
  | _ => false

/-- The summation loop of `getCaretPosition`: walk the element children in
order, adding each child's text length (plus the Chrome separator allowance)
until the end container is reached. -/
def caretWalk (b : Browsers) (target : SelRef) : Nat → List Element → Nat
  | _, [] => 0
  | k, e :: es =>
    if target == SelRef.childRef k then 0
    else
      (e.textContent.length +
        (if b == .chrome && hasClassStr e.classAttr "separator" then 1 else 0)) +
        caretWalk b target (k + 1) es

/-- `getCaretPosition` (part_001 lines 188-215).  Returns `none` when
`rangeCount === 0`.  Otherwise: a text-node end container is replaced by its
parent; for a non-text end container with positive offset the offset becomes
the container's text length; the Chrome separator allowance adds one; then
the children before the end container contribute their lengths. -/
def getCaretPosition (b : Browsers) (children : List Element)
    (sel : SelectionM) : Option Nat :=
  match sel.range with
  | none => none
  | some (r, off0) =>
    let endContainer : SelRef :=
      match r with
      | .textRef i => .childRef i
      | x => x
    let endOffset : Nat :=
      match r with
      | .textRef _ => off0
      | x => if 0 < off0 then (textContentOf children x).length else off0
    let endOffset :=
      if sepAllowanceRef b children endContainer then endOffset + 1 else endOffset
    some (caretWalk b endContainer 0 children + endOffset)

/-- `saveSelection` (part_001 lines 222-224) is exactly `getCaretPosition`. -/
def saveSelection (b : Browsers) (children : List Element)
    (sel : SelectionM) : Option Nat :=
  getCaretPosition b children sel

/-- `getCaretNode` (part_001 lines 158-179).  `none` when the selection has
no anchor; the container anchor resolves to its last child (or itself when
empty); a text anchor resolves to its parent element.  (Text nodes sitting
directly under the container, which the source sends through
`getClosestElementNode`, are outside this model: rendered states only have
element children.) -/
def getCaretNode (children : List Element) (sel : SelectionM) : Option SelRef :=
  match sel.range with
  | none => none
  | some (r, _) =>
    match r with
    | .containerRef =>
      if children.isEmpty then some .containerRef
      else some (.childRef (children.length - 1))
    | .childRef i => some (.childRef i)
    | .textRef i => some (.childRef i)

/-- `getCaretTokenAndIsAtEndBoundary` (part_001 lines 86-107): resolve the
anchor to the token element holding the caret and whether the caret offset
sits at that node's end boundary; `[null, false]` when there is no anchor. -/
def getCaretTokenAndIsAtEnd (container : Element) (children : List Element)
    (sel : SelectionM) : Option Element × Bool :=
  match sel.range with
  | none => (none, false)
  | some (r, off) =>
    match r with
    | .textRef i =>
      match children.get? i with
      | some e => (some e, off == e.textContent.length)
      | none => (none, false)
    | .childRef i =>
      match children.get? i with
      | some e => (some e, off == childNodesCount e)
      | none => (none, false)
    | .containerRef => (some container, off == children.length)

/-- `isCaretAtTheEndOfCompleteToken` (part_001 lines 72-84).  When the
anchor is unresolvable the helper returns `[null, false]` and the function
then dereferences the null token (`textToken.classList`), raising a
TypeError — with either value of `extensibleAsIncomplete` the null value is
dereferenced. -/
def isCaretAtTheEndOfCompleteToken (extensibleAsIncomplete : Bool)
    (container : Element) (children : List Element)
    (sel : SelectionM) : Except JsErr Bool :=
  match getCaretTokenAndIsAtEnd container children sel with
  | (none, _) => .error .typeErrorNullDeref
  | (some tok, isAtEnd) =>
    .ok (!(hasClassStr tok.classAttr "incomplete") &&
      hasClassStr tok.classAttr "token" &&
      !(extensibleAsIncomplete && hasClassStr tok.classAttr "extensible") &&
      isAtEnd)

/-- Outcome of a keydown helper: whether `preventDefault` ran and whether
the caret was hopped out of the token (`moveCursorOutFromTokenEnd`). -/
structure SpaceOutcome where
  prevented : Bool
  movedOut : Bool
deriving DecidableEq, Repr

/-- `handleSpacesAtTokenEndings` (part_002 lines 289-296): on a Space key,
if the caret is at the end of a complete token (checked with the *default*
`extensibleAsIncomplete = false`), prevent the default insertion and hop the
caret out past the separator. -/
def handleSpacesAtTokenEndings (key : String) (container : Element)
    (children : List Element) (sel : SelectionM) : Except JsErr SpaceOutcome :=
  if key = " " then
    match isCaretAtTheEndOfCompleteToken false container children sel with
    | .error e => .error e
    | .ok true => .ok ⟨true, true⟩
    | .ok false => .ok ⟨false, false⟩
  else .ok ⟨false, false⟩

/-! ## `getTokenPosition` / `selectNodeByIdx` (part_002) -/

/-- `getNodeCoordinate` (part_001 lines 370-384). -/
def getNodeCoordinate (containerRect nodeRect : Rect) : Position :=
  let topCoord := nodeRect.top - containerRect.top
  let leftCoord := nodeRect.left - containerRect.left
  ⟨topCoord, leftCoord, topCoord + nodeRect.height, leftCoord + nodeRect.width⟩

/-- `getContentNodes` (part_002 lines 451-455): children whose *full* class
attribute is not exactly `separator`. -/
def getContentNodes (children : List Element) : List Element :=
  children.filter (fun e => e.classAttr ≠ "separator")

/-- `findContentNodeAtIndex` (part_002 lines 457-459); out-of-range JS
indexing yields `undefined`, i.e. `none`. -/
def findContentNodeAtIndex (children : List Element) (idx : Nat) : Option Element :=
  (getContentNodes children).get? idx

/-- `getTokenPosition` (part_002 lines 101-107): `null` for a missing node. -/
def getTokenPosition (containerRect : Rect) (children : List Element)
    (idx : Nat) : Option Position :=
  match findContentNodeAtIndex children idx with
  | none => none
  | some n => some (getNodeCoordinate containerRect n.rect)

/-- `getTextChild` (part_001 lines 467-473) applied to an optional node:
on `undefined` the recursion dereferences `undefined.nodeName` (TypeError);
on an element with no text child it recurses into a null `firstChild`
(TypeError); otherwise it lands on the text node. -/
def getTextChild : Option Element → Except JsErr Unit
  | none => .error .typeErrorNullDeref
  | some e =>
    if e.textContent.length = 0 then .error .typeErrorNullDeref else .ok ()

/-- `selectNodeByIdx` (part_002 lines 195-200) → `setCaretAtNodeOffset`
(part_001 lines 335-342): the target node is looked up without a guard and
handed to `getTextChild`; an out-of-range index therefore raises.  Offsets
past the text length are rejected by the range primitive
(`IndexSizeError`). -/
def selectNodeByIdx (children : List Element) (idx offset : Nat) :
    Except JsErr Unit :=
  match findContentNodeAtIndex children idx with
  | none => .error .typeErrorNullDeref
  | some n =>
    match getTextChild (some n) with
    | .error e => .error e
    | .ok _ =>
      if offset ≤ n.textContent.length then .ok () else .error .indexSizeError

/-! ## `restoreSelection` (part_001 lines 226-267)

`restoreSelection` iterates `element.childNodes`, descending each child to
its deepest first descendant (`while (currentNode.childNodes.length > 0)`).
A descended node is either a text node or a childless element; `DNode`
captures exactly what the walk reads off such a node: its `.length`
(`undefined` for elements) and whether the Chrome separator allowance
applies to it. -/

/-- A child node after the descent: a text node of a given length, or a
childless element (flag: does its classList contain `separator`?). -/
inductive DNode where
  | textN (len : Nat)
  | elemN (isSep : Bool)
deriving DecidableEq, Repr

/-- Descend a rendered child to its deepest first descendant.  A child with
non-empty text descends to its text node; an empty child stays an element. -/
def descendNode (e : Element) : DNode :=
  if e.textContent.length = 0 then .elemN (hasClassStr e.classAttr "separator")
  else .textN e.textContent.length

/-- `shouldDoSeparatorAllowance` on a descended node: text nodes have no
`classList`. -/
def allowanceN (chrome : Bool) : DNode → Bool
  | .textN _ => false
  | .elemN s => chrome && s

/-- `previousNode.length || 0` with the separator allowance:
`shouldDoSeparatorAllowance(previousNode) ? 1 : previousNode.length || 0`. -/
def prevLen (chrome : Bool) : DNode → Int
  | .textN l => l
  | .elemN s => if chrome && s then 1 else 0

/-- The break test `offset <= currentNode.length`: for an element `.length`
is `undefined` and the comparison is false. -/
def checkBreak : DNode → Int → Bool
  | .textN l, off => off ≤ (l : Int)
  | .elemN _, _ => false

/-- The `for` loop of `restoreSelection`: per iteration the previous node's
length is subtracted, then the loop breaks when the current node has enough
length.  Returns the final `currentNode` and offset. -/
def restoreLoop (chrome : Bool) :
    List DNode → Option DNode → Int → Option DNode × Int
  | [], prev, off => (prev, off)
  | n :: rest, prev, off =>
    let off2 :=
      match prev with
      | none => off
      | some p => off - prevLen chrome p
    if checkBreak n off2 then (some n, off2)
    else restoreLoop chrome rest (some n) off2

/-- `Range.setStart(node, offset)` succeeds iff the offset is within the
node: for a text node `0 ≤ offset ≤ length`; for a childless element the
only valid offset is `0`. -/
def setStartOK : DNode → Int → Bool
  | .textN l, off => decide (0 ≤ off) && decide (off ≤ (l : Int))
  | .elemN _, off => off == 0

/-- `restoreSelection` (part_001 lines 226-267): run the walk; when the
walk produced a node, zero the offset on a Chrome separator, then
`setStart` — which throws when the offset is out of range for the node.
`.ok none` is the no-children case (no caret is placed, nothing throws). -/
def restoreSelection (chrome : Bool) (nodes : List DNode) (off : Int) :
    Except JsErr (Option (DNode × Int)) :=
  match restoreLoop chrome nodes none off with
  | (none, _) => .ok none
  | (some n, off2) =>
    let off3 := if allowanceN chrome n then 0 else off2
    if setStartOK n off3 then .ok (some (n, off3)) else .error .indexSizeError

/-- The descended `childNodes` of the rendered markup for a token list. -/
def childDNodes (b : Browsers) (tokens : List DisplayToken) : List DNode :=
  (classifyNodes b tokens).map descendNode

/-! ## `tokenizeDisplay` / `fixSavedSelection` (part_002 lines 475-524) -/

/-- The search query built in `tokenizeDisplay` (lines 491-494):
`tokens.map(t => t.value).join(' ')`, trimmed when the token list is
non-empty and its last token is complete. -/
def searchQuery (tokens : List DisplayToken) : String :=
  let q := joinSp (tokens.map (fun t => t.value))
  match tokens.getLast? with
  | none => q
  | some t => if t.isIncomplete then q else jsTrim q

/-- `fixSavedSelection` (part_002 lines 516-524): clamp the saved caret
offset to the query length; the flag records whether a fix happened. -/
def fixSavedSelection (savedSel : Nat) (searchQueryStr : String) : Nat × Bool :=
  if savedSel > searchQueryStr.length then (searchQueryStr.length, true)
  else (savedSel, false)

/-- JS truthiness of the saved selection (`if (savedSel)`): `null`,
`undefined` and `0` are all falsy. -/
def jsTruthy : Option Nat → Bool
  | none => false
  | some 0 => false
  | some (_ + 1) => true

/-- Trace of one `tokenizeDisplay` call: whether the string short-circuit
fired, whether the content was replaced, the value `saveSelection`
produced, and the (clamped) offset handed to `restoreSelection` (`none`
when the restore branch was skipped). -/
structure TDTrace where
  shortCircuited : Bool
  replaced : Bool
  savedSel : Option Nat
  restoredOffset : Option Nat
deriving DecidableEq, Repr

/-- `tokenizeDisplay` (part_002 lines 475-505), decision level.  The
short-circuit compares the newly built markup against
`el.innerHTML.replace(' edited', '')` — note the literal string
`' edited'`, while the class actually added to edited nodes is
`bk-edited-node` (`classes.EDITED`, part_001 line 44).  `caretPos` is what
`getCaretPosition` would return for the current selection. -/
def tokenizeDisplay (b : Browsers) (tokens : List DisplayToken)
    (doNotRestoreCaret0 : Bool) (current : List Element)
    (hasFocus caretInContainer : Bool) (caretPos : Option Nat) : TDTrace :=
  let styledText := classify b tokens
  if styledText = replaceFirst (serializeChildren current) " edited" "" then
    ⟨true, false, none, none⟩
  else
    let dnr := doNotRestoreCaret0 || !hasFocus || !caretInContainer
    let savedSel := if dnr then none else caretPos
    if jsTruthy savedSel then
      let fixed := fixSavedSelection (savedSel.getD 0) (searchQuery tokens)
      ⟨false, true, savedSel, some fixed.1⟩
    else ⟨false, true, savedSel, none⟩

/-- `this.editedNode.classList.add(classes.EDITED)` applied to child `i` of
the current render (`setEditedNode`, part_002 lines 534-549). -/
def addEditedAt : List Element → Nat → List Element
  | [], _ => []
  | e :: es, 0 =>
    { e with classAttr := classListAdd e.classAttr "bk-edited-node" } :: es
  | e :: es, n + 1 => e :: addEditedAt es n

/-- Remove the transient edited class from every child — the reading of
"markup equal ignoring the transient edited class" used by the spec. -/
def stripEdited (children : List Element) : List Element :=
  children.map (fun e =>
    if hasClassStr e.classAttr "bk-edited-node" then
      { e with classAttr := classListRemove e.classAttr "bk-edited-node" }
    else e)

/-! ## The debounced change pipeline (`setupOnChange`, part_002 lines 225-257)

`Observable.fromEvent(el, changeEventName).filter(not composing)
  .switchMap(ev => timer(debounce).flatMap(() => macrotask(onChange(text, caret))))
  .subscribe(tokens => apply)`
with **no error handler** in `subscribe`.

The model is an epoch-labelled state machine.  Each qualifying change event
captures the text and caret at event time and starts a fresh inner
observable (epoch = number of events so far); `switchMap` unsubscribes the
previous inner observable, so a superseded debounce timer never fires and a
superseded response is never delivered.  Per the Rx contract an error
delivered to a subscriber without an error handler tears the whole
subscription down (`dead`), after rethrowing to the host (`errored`):
no later event is observed.  The debounce-timer fire and the macrotask that
issues `onChange` are merged into one `timerFire` step; the claims only
quantify over events arriving before the timer fires, where the inner
observable (a bare `Observable.timer`) is cancelled wholesale. -/

/-- Pipeline state.  `calls` is the log of issued `onChange` calls
(epoch, text, caret); `display` the last applied token list. -/
structure PipeState where
  epoch : Nat
  timerArmed : Bool
  capturedText : String
  capturedCaret : Option Nat
  inFlight : Bool
  calls : List (Nat × String × Option Nat)
  display : Option (List DisplayToken)
  dead : Bool
  errored : Bool
deriving DecidableEq, Repr

/-- Events driving the pipeline: a qualifying change event (with the text
and caret read at event time), the debounce timer of a given epoch firing,
and the consumer promise of a given epoch resolving or rejecting. -/
inductive PEvent where
  | input (text : String) (caret : Option Nat)
  | timerFire (epoch : Nat)
  | resolve (epoch : Nat) (tokens : List DisplayToken)
  | reject (epoch : Nat)
deriving Repr

/-- The initial pipeline state. -/
def initPipe : PipeState :=
  ⟨0, false, "", none, false, [], none, false, false⟩

/-- One step of the pipeline. -/
def pstep (s : PipeState) : PEvent → PipeState
  | .input t c =>
    if s.dead then s
    else
      { s with epoch := s.epoch + 1, timerArmed := true,
               capturedText := t, capturedCaret := c, inFlight := false }
  | .timerFire e =>
    if !s.dead && e == s.epoch && s.timerArmed then
      { s with timerArmed := false, inFlight := true,
               calls := s.calls ++ [(e, s.capturedText, s.capturedCaret)] }
    else s
  | .resolve e toks =>
    if !s.dead && e == s.epoch && s.inFlight then
      { s with inFlight := false, display := some toks }
    else s
  | .reject e =>
    if !s.dead && e == s.epoch && s.inFlight then
      { s with inFlight := false, dead := true, errored := true }
    else s

/-- Run the pipeline over a trace of events. -/
def prun (s : PipeState) (evs : List PEvent) : PipeState :=
  evs.foldl pstep s

/-! ## Predicates used to state the refined claims -/

/-- Every token carries a non-empty value. -/
def allValuesNonempty (tokens : List DisplayToken) : Bool :=
  tokens.all (fun t => t.value ≠ "")

/-- Only the final token (if any) may be incomplete. -/
def onlyLastIncomplete : List DisplayToken → Bool
  | [] => true
  | [_] => true
  | t :: ts => !t.isIncomplete && onlyLastIncomplete ts

/-- The content nodes (in order) that `classify` produces for a token list,
starting at index `i`. -/
def contentListGo (b : Browsers) : Nat → List DisplayToken → List Element
  | _, [] => []
  | i, t :: ts => contentNode b i t :: contentListGo b (i + 1) ts

/-! # Theorems -/

/-- C4: with an unresolvable native selection (no active range / null
anchor node), `getCaretPosition` and `getCaretNode` are no-ops returning
null — but `isCaretAtTheEndOfCompleteToken` dereferences the null token
its own guard just produced and throws a TypeError, with either value of
its flag.  This settles the claim as a code bug: the spec's "never throws"
policy is violated by the boundary predicate. -/
theorem C4_unresolvable_selection_eval :
    ∀ (b : Browsers) (container : Element) (children : List Element),
      getCaretPosition b children ⟨none⟩ = none ∧
      getCaretNode children ⟨none⟩ = none ∧
      isCaretAtTheEndOfCompleteToken false container children ⟨none⟩ =
        .error .typeErrorNullDeref ∧
      isCaretAtTheEndOfCompleteToken true container children ⟨none⟩ =
        .error .typeErrorNullDeref := by
  intro b container children
  exact ⟨rfl, rfl, rfl, rfl⟩

/-- C5: `getTokenPosition` with an out-of-range index returns null, but
`selectNodeByIdx` hands the missing (`undefined`) node to
`setCaretAtNodeOffset` → `getTextChild`, which dereferences it and throws a
TypeError; an in-range call succeeds.  Rendered content: the two complete
tokens of the test suite. -/
theorem C5_out_of_range_eval :
    getTokenPosition ⟨0, 0, 0, 0⟩
      (classifyNodes .chrome
        [⟨"token1", "class1", false, false⟩, ⟨"token2", "class2", false, false⟩])
      5 = none ∧
    selectNodeByIdx
      (classifyNodes .chrome
        [⟨"token1", "class1", false, false⟩, ⟨"token2", "class2", false, false⟩])
      5 0 = .error .typeErrorNullDeref ∧
    selectNodeByIdx
      (classifyNodes .chrome
        [⟨"token1", "class1", false, false⟩, ⟨"token2", "class2", false, false⟩])
      1 3 = .ok () := by
  exact ⟨rfl, rfl, rfl⟩

/-- C3: constructing with `initialInput = [token1, token2]` (the test
suite's config) renders markup whose `getInnerText` is `"token1 token2"` on
every browser row — but `getNumTokens` is `el.children.length`, which
counts the two separator nodes as well and returns 4, not 2. -/
theorem C3_scenario_a_eval :
    ∀ b : Browsers,
      getInnerText b
        (classifyNodes b
          [⟨"token1", "class1", false, false⟩,
           ⟨"token2", "class2", false, false⟩]) = "token1 token2" ∧
      getNumTokens
        (classifyNodes b
          [⟨"token1", "class1", false, false⟩,
           ⟨"token2", "class2", false, false⟩]) = 4 := by
  intro b
  cases b <;> exact ⟨by decide, by decide⟩

/-- C6: the short-circuit of `tokenizeDisplay` compares against
`el.innerHTML.replace(' edited', '')`, but the transient edited class is
`bk-edited-node`, which that replace does not touch.  With the rendered
markup of `[{value:"a"}]` carrying the edited class, the new markup equals
the rendered markup once the edited class is ignored (first conjunct), yet
the code does not short-circuit and performs a full replace (second and
third conjuncts).  Without an edited class the short-circuit does fire
(fourth conjunct). -/
theorem C6_edited_class_breaks_short_circuit :
    (classify .chrome [⟨"a", "c1", false, false⟩] =
      serializeChildren
        (stripEdited (addEditedAt (classifyNodes .chrome [⟨"a", "c1", false, false⟩]) 0))) ∧
    (tokenizeDisplay .chrome [⟨"a", "c1", false, false⟩] false
      (addEditedAt (classifyNodes .chrome [⟨"a", "c1", false, false⟩]) 0)
      true true (some 1)).shortCircuited = false ∧
    (tokenizeDisplay .chrome [⟨"a", "c1", false, false⟩] false
      (addEditedAt (classifyNodes .chrome [⟨"a", "c1", false, false⟩]) 0)
      true true (some 1)).replaced = true ∧
    (tokenizeDisplay .chrome [⟨"a", "c1", false, false⟩] false
      (classifyNodes .chrome [⟨"a", "c1", false, false⟩])
      true true (some 1)).shortCircuited = true := by
  exact ⟨by decide, by decide, by decide, by decide⟩

/-- C2: a rejected `onChange` promise propagates through the rxjs chain to
a subscriber with no error handler: it is surfaced (rethrown) and the whole
`setupOnChange` subscription is disposed.  After the rejection a further
qualifying change event issues *no* tokenize call — the calls log still
holds only the first cycle — contradicting the claim that later cycles are
not deadlocked.  The contrast trace (resolution instead of rejection) shows
the second cycle would otherwise have issued its call. -/
theorem C2_rejection_terminates_pipeline :
    (prun initPipe [.input "a" (some 0), .timerFire 1, .reject 1,
                    .input "b" (some 1), .timerFire 2]).calls =
      [(1, "a", some 0)] ∧
    (prun initPipe [.input "a" (some 0), .timerFire 1, .reject 1,
                    .input "b" (some 1), .timerFire 2]).errored = true ∧
    (prun initPipe [.input "a" (some 0), .timerFire 1, .reject 1,
                    .input "b" (some 1), .timerFire 2]).dead = true ∧
    (prun initPipe [.input "a" (some 0), .timerFire 1, .resolve 1 [],
                    .input "b" (some 1), .timerFire 2]).calls =
      [(1, "a", some 0), (2, "b", some 1)] := by
  exact ⟨rfl, rfl, rfl, rfl⟩

/-- C1: switch-to-latest cancellation.  From any live pipeline state, two
qualifying change events with the second arriving before the first's
debounce timer fires issue exactly one `onChange` call, carrying the text
and caret captured at the second event (the first timer, already
unsubscribed by `switchMap`, is inert); and a response belonging to an
older epoch than the current one is discarded without any state change —
in particular it is never applied to the display. -/
theorem C1_switch_to_latest :
    ∀ (s : PipeState), s.dead = false →
    ∀ (t1 t2 : String) (c1 c2 : Option Nat),
      ((pstep (pstep (pstep s (.input t1 c1)) (.input t2 c2))
          (.timerFire (s.epoch + 1))).calls = s.calls ∧
       (pstep (pstep (pstep (pstep s (.input t1 c1)) (.input t2 c2))
          (.timerFire (s.epoch + 1))) (.timerFire (s.epoch + 2))).calls =
         s.calls ++ [(s.epoch + 2, t2, c2)]) ∧
      (∀ (e : Nat) (toks : List DisplayToken), e < s.epoch →
        pstep s (.resolve e toks) = s) := by
  intro s hd t1 t2 c1 c2
  refine ⟨⟨?_, ?_⟩, ?_⟩
  · simp [pstep, hd]
  · simp [pstep, hd]
  · intro e toks hlt
    have hne : (e == s.epoch) = false := by
      simp [Nat.ne_of_lt hlt]
    simp [pstep, hne]

/-- Witness for C1 at a concrete live state. -/
theorem C1_switch_to_latest_witness :
    (pstep initPipe (.input "x" none)).dead = false ∧
    ((pstep (pstep (pstep (pstep initPipe (.input "x" none)) (.input "a" (some 1)))
        (.input "b" (some 2))) (.timerFire 2)).calls = [] ∧
     (pstep (pstep (pstep (pstep (pstep initPipe (.input "x" none))
        (.input "a" (some 1))) (.input "b" (some 2))) (.timerFire 2))
        (.timerFire 3)).calls = [(3, "b", some 2)]) ∧
    pstep (pstep initPipe (.input "x" none)) (.resolve 0 []) =
      pstep initPipe (.input "x" none) := by
  refine ⟨rfl, ?_, ?_⟩
  · exact (C1_switch_to_latest (pstep initPipe (.input "x" none)) rfl
      "a" "b" (some 1) (some 2)).1
  · exact (C1_switch_to_latest (pstep initPipe (.input "x" none)) rfl
      "a" "b" (some 1) (some 2)).2 0 [] (by decide)

/-- C10: in `tokenizeDisplay` the restore branch is guarded by the JS
truthiness test `if (savedSel)`: the caret is clamped and restored only
when the captured offset is strictly positive; a captured offset of `0`
(and a null capture) skips the branch entirely, leaving the selection
unrestored after the content replacement. -/
theorem C10_zero_offset_skips_restore :
    ∀ (b : Browsers) (tokens : List DisplayToken) (dnr : Bool)
      (current : List Element) (hasFocus caretIn : Bool)
      (caretPos : Option Nat),
      (caretPos = some 0 →
        (tokenizeDisplay b tokens dnr current hasFocus caretIn
          caretPos).restoredOffset = none) ∧
      ((tokenizeDisplay b tokens dnr current hasFocus caretIn
          caretPos).restoredOffset ≠ none →
        ∃ n : Nat,
          (tokenizeDisplay b tokens dnr current hasFocus caretIn
            caretPos).savedSel = some (n + 1)) := by
  intro b tokens dnr current hasFocus caretIn caretPos
  by_cases hG : classify b tokens = replaceFirst (serializeChildren current) " edited" ""
  · constructor
    · intro _
      simp [tokenizeDisplay, hG]
    · intro h
      simp [tokenizeDisplay, hG] at h
  · by_cases hD : (dnr || !hasFocus || !caretIn) = true
    · constructor
      · intro _
        simp [tokenizeDisplay, hG, hD, jsTruthy]
      · intro h
        simp [tokenizeDisplay, hG, hD, jsTruthy] at h
    · have hD2 : (dnr || !hasFocus || !caretIn) = false := by
        simpa using hD
      constructor
      · intro hc
        subst hc
        simp [tokenizeDisplay, hG, hD2, jsTruthy]
      · intro h
        cases caretPos with
        | none => simp [tokenizeDisplay, hG, hD2, jsTruthy] at h
        | some n =>
          cases n with
          | zero => simp [tokenizeDisplay, hG, hD2, jsTruthy] at h
          | succ m =>
            refine ⟨m, ?_⟩
            simp [tokenizeDisplay, hG, hD2, jsTruthy]


/-- Witness for C10: a concrete render with captured offset 0 skips the
restore. -/
theorem C10_zero_offset_skips_restore_witness :
    (tokenizeDisplay .chrome [⟨"a", "c", false, false⟩] false []
      true true (some 0)).restoredOffset = none := by
  exact (C10_zero_offset_skips_restore .chrome [⟨"a", "c", false, false⟩]
    false [] true true (some 0)).1 rfl

/-- C9 counterexample: the Space handler calls
`isCaretAtTheEndOfCompleteToken()` with its *default*
`extensibleAsIncomplete = false`, so a complete token marked `extensible`
is *not* exempt: with the caret at the end boundary of the rendered
extensible token `"ab"`, the handler prevents the default insertion and
hops the caret out — refuting the claimed exemption. -/
theorem C9_extensible_not_exempt_counterexample :
    handleSpacesAtTokenEndings " " (initNode .chrome)
      (classifyNodes .chrome [⟨"ab", "c1", false, true⟩])
      ⟨some (.textRef 0, 2)⟩ = .ok ⟨true, true⟩ := by
  rfl

/-- C9 (amended): on a Space keydown with the caret at the end boundary of
a complete token (class `token`, not `incomplete`), the default insertion
is prevented and the caret hops out — *regardless* of the `extensible`
flag; the extensible exemption exists only on the render path, where
`tokenizeDisplay` calls the predicate with `extensibleAsIncomplete = true`
and an extensible token then reports `false`. -/
theorem C9_space_hop_amended :
    ∀ (container e : Element) (children : List Element) (i : Nat)
      (sel : SelectionM),
      sel = ⟨some (.textRef i, e.textContent.length)⟩ →
      children[i]? = some e →
      hasClassStr e.classAttr "token" = true →
      hasClassStr e.classAttr "incomplete" = false →
      handleSpacesAtTokenEndings " " container children sel = .ok ⟨true, true⟩ ∧
      (hasClassStr e.classAttr "extensible" = true →
        isCaretAtTheEndOfCompleteToken true container children sel = .ok false) := by
  intro container e children i sel hsel hget htok hinc
  subst hsel
  constructor
  · simp [handleSpacesAtTokenEndings, isCaretAtTheEndOfCompleteToken,
      getCaretTokenAndIsAtEnd, hget, htok, hinc]
  · intro hext
    simp [isCaretAtTheEndOfCompleteToken, getCaretTokenAndIsAtEnd,
      hget, htok, hinc, hext]

/-- Witness for C9 (amended), on a rendered non-extensible complete token
and the extensible render-path exemption on a rendered extensible token. -/
theorem C9_space_hop_amended_witness :
    handleSpacesAtTokenEndings " " (initNode .chrome)
      (classifyNodes .chrome [⟨"ab", "c1", false, false⟩])
      ⟨some (.textRef 0, 2)⟩ = .ok ⟨true, true⟩ ∧
    isCaretAtTheEndOfCompleteToken true (initNode .chrome)
      (classifyNodes .chrome [⟨"ab", "c1", false, true⟩])
      ⟨some (.textRef 0, 2)⟩ = .ok false := by
  constructor
  · exact (C9_space_hop_amended (initNode .chrome)
      (contentNode .chrome 0 ⟨"ab", "c1", false, false⟩)
      (classifyNodes .chrome [⟨"ab", "c1", false, false⟩]) 0
      ⟨some (.textRef 0, 2)⟩ rfl rfl (by decide) (by decide)).1
  · exact (C9_space_hop_amended (initNode .chrome)
      (contentNode .chrome 0 ⟨"ab", "c1", false, true⟩)
      (classifyNodes .chrome [⟨"ab", "c1", false, true⟩]) 0
      ⟨some (.textRef 0, 2)⟩ rfl rfl (by decide) (by decide)).2 (by decide)

/-- C7 counterexample: two captured offsets that pass the clamp untouched
yet make `restoreSelection` throw an `IndexSizeError` on the Chrome walk —
first with an empty-valued complete token in the middle (the separator
allowance drives the offset negative before a text node breaks), then with
an incomplete token before the end (the walk runs past the last text node
with a leftover offset).  This refutes "the restoration never throws". -/
theorem C7_restore_throws_counterexample :
    restoreSelection true
      (childDNodes .chrome
        [⟨"a", "c", false, false⟩, ⟨"", "c", false, false⟩,
         ⟨"x", "c", false, false⟩])
      ((fixSavedSelection 2
        (searchQuery
          [⟨"a", "c", false, false⟩, ⟨"", "c", false, false⟩,
           ⟨"x", "c", false, false⟩])).1 : Int) = .error .indexSizeError ∧
    restoreSelection true
      (childDNodes .chrome [⟨"a", "c", true, false⟩, ⟨"b", "c", true, false⟩])
      ((fixSavedSelection 3
        (searchQuery
          [⟨"a", "c", true, false⟩, ⟨"b", "c", true, false⟩])).1 : Int) =
      .error .indexSizeError := by
  exact ⟨rfl, rfl⟩

/-! ### Helper lemmas about the renderer (shared by C8 and C7) -/

theorem sepNode_dataIdx (b : Browsers) : (sepNode b).dataIdx = none := by
  unfold sepNode
  split <;> rfl

theorem contentNode_dataIdx (b : Browsers) (i : Nat) (t : DisplayToken) :
    (contentNode b i t).dataIdx = some i := rfl

theorem contentNode_ne_sepNode (b b2 : Browsers) (i : Nat) (t : DisplayToken) :
    contentNode b i t ≠ sepNode b2 := by
  intro h
  have h2 := congrArg Element.dataIdx h
  rw [contentNode_dataIdx, sepNode_dataIdx] at h2
  exact Option.noConfusion h2

theorem serialize_contentNode (b : Browsers) (i : Nat) (t : DisplayToken) :
    serializeElem (contentNode b i t) =
      tokenTemplateStr b i (tokenClassStr t) (escapeJs t.value) := rfl

theorem serialize_sepNode (b : Browsers) :
    serializeElem (sepNode b) = separatorTemplateStr b := by
  cases b <;> rfl

theorem serialize_initNode (b : Browsers) :
    serializeElem (initNode b) = initTokenTplStr b := by
  cases b <;> rfl

theorem join_cons (a : String) (l : List String) :
    String.join (a :: l) = a ++ String.join l := by
  apply String.ext
  simp [String.join_eq, String.data_append]

theorem classifyGo_eq_join (b : Browsers) :
    ∀ (ts : List DisplayToken) (k : Nat),
      classifyGo b k ts = String.join ((classifyNodesGo b k ts).map serializeElem) := by
  intro ts
  induction ts with
  | nil => intro k; rfl
  | cons t ts ih =>
    intro k
    cases hinc : t.isIncomplete <;>
      simp [classifyGo, classifyNodesGo, hinc, join_cons, ih,
        serialize_contentNode, serialize_sepNode, String.append_assoc]

theorem classifyNodesGo_filter (b : Browsers) :
    ∀ (ts : List DisplayToken) (k : Nat),
      (classifyNodesGo b k ts).filter (fun e => e.dataIdx.isSome) =
        contentListGo b k ts := by
  intro ts
  induction ts with
  | nil => intro k; rfl
  | cons t ts ih =>
    intro k
    cases hinc : t.isIncomplete <;>
      simp [classifyNodesGo, contentListGo, hinc, ih, List.filter,
        contentNode_dataIdx, sepNode_dataIdx]

theorem classifyNodesGo_head (b : Browsers) (k : Nat) (t : DisplayToken)
    (ts : List DisplayToken) :
    (classifyNodesGo b k (t :: ts))[0]? = some (contentNode b k t) := by
  cases hinc : t.isIncomplete <;> simp [classifyNodesGo, hinc]

theorem classifyNodesGo_dataIdx_ge (b : Browsers) :
    ∀ (ts : List DisplayToken) (k i : Nat) (c : Element) (j : Nat),
      (classifyNodesGo b k ts)[i]? = some c → c.dataIdx = some j → k ≤ j := by
  intro ts
  induction ts with
  | nil => intro k i c j hc; simp [classifyNodesGo] at hc
  | cons t ts ih =>
    intro k i c j hc hj
    cases hinc : t.isIncomplete
    · rw [show classifyNodesGo b k (t :: ts) =
        contentNode b k t :: sepNode b :: classifyNodesGo b (k + 1) ts by
          simp [classifyNodesGo, hinc]] at hc
      match i, hc with
      | 0, hc =>
        rw [List.getElem?_cons_zero] at hc
        cases hc
        rw [contentNode_dataIdx] at hj
        cases hj
        exact Nat.le_refl _
      | 1, hc =>
        rw [List.getElem?_cons_succ, List.getElem?_cons_zero] at hc
        cases hc
        rw [sepNode_dataIdx] at hj
        exact Option.noConfusion hj
      | (i2 + 2), hc =>
        rw [List.getElem?_cons_succ, List.getElem?_cons_succ] at hc
        exact Nat.le_of_succ_le (ih (k + 1) i2 c j hc hj)
    · rw [show classifyNodesGo b k (t :: ts) =
        contentNode b k t :: classifyNodesGo b (k + 1) ts by
          simp [classifyNodesGo, hinc]] at hc
      match i, hc with
      | 0, hc =>
        rw [List.getElem?_cons_zero] at hc
        cases hc
        rw [contentNode_dataIdx] at hj
        cases hj
        exact Nat.le_refl _
      | (i2 + 1), hc =>
        rw [List.getElem?_cons_succ] at hc
        exact Nat.le_of_succ_le (ih (k + 1) i2 c j hc hj)

theorem classifyNodesGo_succ_iff (b : Browsers) :
    ∀ (ts : List DisplayToken) (k i : Nat) (e : Element),
      (classifyNodesGo b k ts)[i + 1]? = some e →
      (e = sepNode b ↔
        ∃ c j t, (classifyNodesGo b k ts)[i]? = some c ∧
          c.dataIdx = some (k + j) ∧ ts[j]? = some t ∧
          t.isIncomplete = false) := by
  intro ts
  induction ts with
  | nil =>
    intro k i e hc
    simp [classifyNodesGo] at hc
  | cons t ts ih =>
    intro k i e hc
    cases hinc : t.isIncomplete
    case false =>
      rw [show classifyNodesGo b k (t :: ts) =
        contentNode b k t :: sepNode b :: classifyNodesGo b (k + 1) ts by
          simp [classifyNodesGo, hinc]] at hc ⊢
      match i, hc with
      | 0, hc =>
        rw [List.getElem?_cons_succ, List.getElem?_cons_zero] at hc
        injection hc with hc
        constructor
        · intro _
          refine ⟨contentNode b k t, 0, t, by simp, ?_, by simp, hinc⟩
          rw [contentNode_dataIdx, Nat.add_zero]
        · intro _
          exact hc.symm
      | 1, hc =>
        rw [List.getElem?_cons_succ, List.getElem?_cons_succ] at hc
        constructor
        · intro he
          exfalso
          cases ts with
          | nil => simp [classifyNodesGo] at hc
          | cons t2 ts2 =>
            rw [classifyNodesGo_head] at hc
            injection hc with hc
            exact contentNode_ne_sepNode b b (k + 1) t2 (hc.trans he)
        · rintro ⟨c, j, t2, hc2, hidx, hts, hninc⟩
          rw [List.getElem?_cons_succ, List.getElem?_cons_zero] at hc2
          injection hc2 with hc2
          rw [← hc2, sepNode_dataIdx] at hidx
          exact Option.noConfusion hidx
      | (i2 + 2), hc =>
        rw [List.getElem?_cons_succ, List.getElem?_cons_succ] at hc
        have hred : (contentNode b k t :: sepNode b ::
            classifyNodesGo b (k + 1) ts)[i2 + 2]? =
            (classifyNodesGo b (k + 1) ts)[i2]? := by
          rw [show i2 + 2 = (i2 + 1) + 1 from rfl, List.getElem?_cons_succ,
            List.getElem?_cons_succ]
        rw [hred, ih (k + 1) i2 e hc]
        constructor
        · rintro ⟨c, j2, t2, h1, h2, h3, h4⟩
          refine ⟨c, j2 + 1, t2, h1, ?_, by simpa using h3, h4⟩
          rw [h2]
          congr 1
          omega
        · rintro ⟨c, j, t2, h1, h2, h3, h4⟩
          have hge := classifyNodesGo_dataIdx_ge b ts (k + 1) i2 c (k + j) h1 h2
          cases j with
          | zero => omega
          | succ j2 =>
            refine ⟨c, j2, t2, h1, ?_, by simpa using h3, h4⟩
            rw [h2]
            congr 1
            omega
    case true =>
      rw [show classifyNodesGo b k (t :: ts) =
        contentNode b k t :: classifyNodesGo b (k + 1) ts by
          simp [classifyNodesGo, hinc]] at hc ⊢
      match i, hc with
      | 0, hc =>
        rw [List.getElem?_cons_succ] at hc
        constructor
        · intro he
          exfalso
          cases ts with
          | nil => simp [classifyNodesGo] at hc
          | cons t2 ts2 =>
            rw [classifyNodesGo_head] at hc
            injection hc with hc
            exact contentNode_ne_sepNode b b (k + 1) t2 (hc.trans he)
        · rintro ⟨c, j, t2, hc2, hidx, hts, hninc⟩
          rw [List.getElem?_cons_zero] at hc2
          injection hc2 with hc2
          rw [← hc2, contentNode_dataIdx] at hidx
          injection hidx with hidx
          have hj0 : j = 0 := by omega
          subst hj0
          rw [List.getElem?_cons_zero] at hts
          injection hts with hts
          rw [← hts, hinc] at hninc
          exact Bool.noConfusion hninc
      | (i2 + 1), hc =>
        rw [List.getElem?_cons_succ] at hc
        rw [List.getElem?_cons_succ, ih (k + 1) i2 e hc]
        constructor
        · rintro ⟨c, j2, t2, h1, h2, h3, h4⟩
          refine ⟨c, j2 + 1, t2, h1, ?_, by simpa using h3, h4⟩
          rw [h2]
          congr 1
          omega
        · rintro ⟨c, j, t2, h1, h2, h3, h4⟩
          have hge := classifyNodesGo_dataIdx_ge b ts (k + 1) i2 c (k + j) h1 h2
          cases j with
          | zero => omega
          | succ j2 =>
            refine ⟨c, j2, t2, h1, ?_, by simpa using h3, h4⟩
            rw [h2]
            congr 1
            omega

theorem classifyNodesGo_next_of_complete (b : Browsers) :
    ∀ (ts : List DisplayToken) (k i : Nat) (c : Element) (j : Nat)
      (t : DisplayToken),
      (classifyNodesGo b k ts)[i]? = some c → c.dataIdx = some (k + j) →
      ts[j]? = some t → t.isIncomplete = false →
      ∃ e, (classifyNodesGo b k ts)[i + 1]? = some e := by
  intro ts
  induction ts with
  | nil =>
    intro k i c j t hc
    simp [classifyNodesGo] at hc
  | cons t0 ts ih =>
    intro k i c j t hc hidx hts hninc
    cases hinc : t0.isIncomplete
    case false =>
      rw [show classifyNodesGo b k (t0 :: ts) =
        contentNode b k t0 :: sepNode b :: classifyNodesGo b (k + 1) ts by
          simp [classifyNodesGo, hinc]] at hc ⊢
      match i, hc with
      | 0, hc => exact ⟨sepNode b, by simp⟩
      | 1, hc =>
        rw [List.getElem?_cons_succ, List.getElem?_cons_zero] at hc
        injection hc with hc
        rw [← hc, sepNode_dataIdx] at hidx
        exact Option.noConfusion hidx
      | (i2 + 2), hc =>
        rw [List.getElem?_cons_succ, List.getElem?_cons_succ] at hc
        have hge := classifyNodesGo_dataIdx_ge b ts (k + 1) i2 c (k + j) hc hidx
        cases j with
        | zero => omega
        | succ j2 =>
          have hidx2 : c.dataIdx = some ((k + 1) + j2) := by
            rw [hidx]
            congr 1
            omega
          obtain ⟨e, he⟩ := ih (k + 1) i2 c j2 t hc hidx2 (by simpa using hts) hninc
          refine ⟨e, ?_⟩
          rw [show i2 + 2 + 1 = (i2 + 1) + 1 + 1 from rfl, List.getElem?_cons_succ,
            List.getElem?_cons_succ]
          exact he
    case true =>
      rw [show classifyNodesGo b k (t0 :: ts) =
        contentNode b k t0 :: classifyNodesGo b (k + 1) ts by
          simp [classifyNodesGo, hinc]] at hc ⊢
      match i, hc with
      | 0, hc =>
        rw [List.getElem?_cons_zero] at hc
        injection hc with hc
        rw [← hc, contentNode_dataIdx] at hidx
        injection hidx with hidx
        have hj0 : j = 0 := by omega
        subst hj0
        rw [List.getElem?_cons_zero] at hts
        injection hts with hts
        rw [← hts, hinc] at hninc
        exact Bool.noConfusion hninc
      | (i2 + 1), hc =>
        rw [List.getElem?_cons_succ] at hc
        have hge := classifyNodesGo_dataIdx_ge b ts (k + 1) i2 c (k + j) hc hidx
        cases j with
        | zero => omega
        | succ j2 =>
          have hidx2 : c.dataIdx = some ((k + 1) + j2) := by
            rw [hidx]
            congr 1
            omega
          obtain ⟨e, he⟩ := ih (k + 1) i2 c j2 t hc hidx2 (by simpa using hts) hninc
          refine ⟨e, ?_⟩
          rw [List.getElem?_cons_succ]
          exact he

/-- C8: invariants of the markup built by `classify`.  For every browser row
and token list: the empty sequence renders the empty-state template; the
string the renderer builds is exactly the serialization of the structured
node sequence, in which every token contributes a content node carrying its
lodash-escaped value (`contentListGo`); the first rendered node is the
first token's content node; a node is a separator exactly when the node
before it is the content node of a complete token; and every complete
token's content node has a following node (its separator). -/
theorem C8_markup_invariants :
    ∀ (b : Browsers) (tokens : List DisplayToken),
      (tokens = [] → classifyNodes b tokens = [initNode b] ∧
        classify b tokens = initTokenTplStr b) ∧
      (classify b tokens =
        String.join ((classifyNodes b tokens).map serializeElem)) ∧
      ((classifyNodes b tokens).filter (fun e => e.dataIdx.isSome) =
        contentListGo b 0 tokens) ∧
      (∀ t0 ts0, tokens = t0 :: ts0 →
        (classifyNodes b tokens)[0]? = some (contentNode b 0 t0)) ∧
      (∀ i e, (classifyNodes b tokens)[i + 1]? = some e →
        (e = sepNode b ↔
          ∃ c j t, (classifyNodes b tokens)[i]? = some c ∧
            c.dataIdx = some j ∧ tokens[j]? = some t ∧
            t.isIncomplete = false)) ∧
      (∀ i c j t, (classifyNodes b tokens)[i]? = some c →
        c.dataIdx = some j → tokens[j]? = some t → t.isIncomplete = false →
        ∃ e, (classifyNodes b tokens)[i + 1]? = some e) := by
  intro b tokens
  cases tokens with
  | nil =>
    refine ⟨fun _ => ⟨rfl, rfl⟩, ?_, rfl, ?_, ?_, ?_⟩
    · cases b <;> rfl
    · intro t0 ts0 h
      exact List.noConfusion h
    · intro i e hc
      simp [classifyNodes] at hc
    · intro i c j t hc hidx hts
      simp at hts
  | cons t0 ts0 =>
    have hns : classifyNodes b (t0 :: ts0) = classifyNodesGo b 0 (t0 :: ts0) := by
      simp [classifyNodes]
    refine ⟨fun h => List.noConfusion h, ?_, ?_, ?_, ?_, ?_⟩
    · rw [hns, show classify b (t0 :: ts0) = classifyGo b 0 (t0 :: ts0) by
        simp [classify]]
      exact classifyGo_eq_join b (t0 :: ts0) 0
    · rw [hns]
      exact classifyNodesGo_filter b (t0 :: ts0) 0
    · intro t1 ts1 heq
      injection heq with h1 h2
      subst h1
      subst h2
      rw [hns]
      exact classifyNodesGo_head b 0 t0 ts0
    · intro i e hc
      rw [hns] at hc
      rw [hns, classifyNodesGo_succ_iff b (t0 :: ts0) 0 i e hc]
      constructor
      · rintro ⟨c, j, t, h1, hidx, hts, hn⟩
        exact ⟨c, j, t, h1, by simpa using hidx, hts, hn⟩
      · rintro ⟨c, j, t, h1, hidx, hts, hn⟩
        exact ⟨c, j, t, h1, by simpa using hidx, hts, hn⟩
    · intro i c j t hc hidx hts hn
      rw [hns] at hc ⊢
      exact classifyNodesGo_next_of_complete b (t0 :: ts0) 0 i c j t hc
        (by simpa using hidx) hts hn

/-- Witness for C8: the renderer invariants evaluated on a concrete mixed
sequence (one complete, one incomplete token). -/
theorem C8_markup_invariants_witness :
    (classify .chrome [⟨"a", "c1", false, false⟩, ⟨"b", "c2", true, false⟩] =
      String.join ((classifyNodes .chrome
        [⟨"a", "c1", false, false⟩, ⟨"b", "c2", true, false⟩]).map
          serializeElem)) ∧
    (sepNode .chrome = sepNode .chrome ↔
      ∃ c j t, (classifyNodes .chrome
          [⟨"a", "c1", false, false⟩, ⟨"b", "c2", true, false⟩])[0]? = some c ∧
        c.dataIdx = some j ∧
        ([⟨"a", "c1", false, false⟩,
          ⟨"b", "c2", true, false⟩] : List DisplayToken)[j]? = some t ∧
        t.isIncomplete = false) := by
  constructor
  · exact (C8_markup_invariants .chrome
      [⟨"a", "c1", false, false⟩, ⟨"b", "c2", true, false⟩]).2.1
  · exact (C8_markup_invariants .chrome
      [⟨"a", "c1", false, false⟩, ⟨"b", "c2", true, false⟩]).2.2.2.2.1 0
      (sepNode .chrome) rfl

/-! ### Helper lemmas for the `restoreSelection` walk (C7) -/

theorem length_dropWhile_le (p : Char → Bool) (l : List Char) :
    (l.dropWhile p).length ≤ l.length := by
  induction l with
  | nil => simp
  | cons c cs ih =>
    by_cases h : p c
    · simp only [List.dropWhile, h, List.length_cons]
      omega
    · simp only [List.dropWhile, h]
      simp

theorem string_eq_empty_of_length (s : String) (h : s.length = 0) : s = "" := by
  cases s with
  | mk l =>
    cases l with
    | nil => rfl
    | cons c cs => simp [String.length] at h

theorem jsTrim_length_le (s : String) : (jsTrim s).length ≤ s.length := by
  show (((s.data.dropWhile jsWS).reverse.dropWhile jsWS).reverse).length ≤
    s.data.length
  rw [List.length_reverse]
  calc ((s.data.dropWhile jsWS).reverse.dropWhile jsWS).length
      ≤ (s.data.dropWhile jsWS).reverse.length := length_dropWhile_le _ _
    _ = (s.data.dropWhile jsWS).length := List.length_reverse _
    _ ≤ s.data.length := length_dropWhile_le _ _

theorem joinSp_length_cons (v : String) (vs : List String) (h : vs ≠ []) :
    (joinSp (v :: vs)).length = v.length + 1 + (joinSp vs).length := by
  cases vs with
  | nil => exact absurd rfl h
  | cons w ws =>
    show ((v ++ " ") ++ joinSp (w :: ws)).length = _
    rw [String.length_append, String.length_append]
    rfl

theorem searchQuery_length_le (tokens : List DisplayToken) :
    (searchQuery tokens).length ≤
      (joinSp (tokens.map (fun t => t.value))).length := by
  unfold searchQuery
  cases hl : tokens.getLast? with
  | none => exact Nat.le_refl _
  | some t =>
    by_cases hi : t.isIncomplete = true
    · simp [hi]
    · simp only [Bool.not_eq_true] at hi
      simp [hi]
      exact jsTrim_length_le _

theorem fixSavedSelection_le (s : Nat) (q : String) :
    (fixSavedSelection s q).1 ≤ q.length := by
  unfold fixSavedSelection
  split
  · exact Nat.le_refl _
  · omega

theorem descend_contentNode (b : Browsers) (k : Nat) (t : DisplayToken)
    (h : t.value ≠ "") :
    descendNode (contentNode b k t) = .textN t.value.length := by
  have hL : t.value.length ≠ 0 := fun h0 => h (string_eq_empty_of_length _ h0)
  simp [descendNode, contentNode, hL]

theorem descend_sepNode_chrome : descendNode (sepNode .chrome) = .elemN true := by
  decide

theorem descend_sepNode_other (b : Browsers) (h : (b == Browsers.chrome) = false) :
    descendNode (sepNode b) = .textN 1 := by
  unfold sepNode
  rw [h]
  rfl

theorem descend_initNode (b : Browsers) : descendNode (initNode b) = .elemN false := rfl

theorem beq_chrome_iff (b : Browsers) :
    (b == Browsers.chrome) = true ↔ b = Browsers.chrome := by
  cases b <;> decide

theorem checkBreak_textN (l : Nat) (off : Int) :
    checkBreak (.textN l) off = decide (off ≤ (l : Int)) := rfl

theorem checkBreak_elemN (s : Bool) (off : Int) :
    checkBreak (.elemN s) off = false := rfl

theorem restoreLoop_cons_none_break (c : Bool) (n : DNode) (rest : List DNode)
    (off : Int) (h : checkBreak n off = true) :
    restoreLoop c (n :: rest) none off = (some n, off) := by
  simp [restoreLoop, h]

theorem restoreLoop_cons_none_cont (c : Bool) (n : DNode) (rest : List DNode)
    (off : Int) (h : checkBreak n off = false) :
    restoreLoop c (n :: rest) none off = restoreLoop c rest (some n) off := by
  simp [restoreLoop, h]

theorem restoreLoop_cons_some_break (c : Bool) (n : DNode) (rest : List DNode)
    (p : DNode) (off : Int) (h : checkBreak n (off - prevLen c p) = true) :
    restoreLoop c (n :: rest) (some p) off = (some n, off - prevLen c p) := by
  simp [restoreLoop, h]

theorem restoreLoop_cons_some_cont (c : Bool) (n : DNode) (rest : List DNode)
    (p : DNode) (off : Int) (h : checkBreak n (off - prevLen c p) = false) :
    restoreLoop c (n :: rest) (some p) off =
      restoreLoop c rest (some n) (off - prevLen c p) := by
  simp [restoreLoop, h]

theorem restoreLoop_shift (c : Bool) (n : DNode) (rest : List DNode) (p : DNode)
    (off : Int) :
    restoreLoop c (n :: rest) (some p) off =
      restoreLoop c (n :: rest) none (off - prevLen c p) := by
  simp [restoreLoop]

/-- Safety of the `restoreSelection` walk over rendered children: with
non-empty token values and incomplete tokens only in final position, the
walk started with a non-negative offset bounded by the logical query length
lands on a node of the list with an offset `setStart` accepts. -/
theorem restoreLoop_safe (b : Browsers) :
    ∀ (ts : List DisplayToken) (k : Nat) (off : Int),
      allValuesNonempty ts = true → onlyLastIncomplete ts = true →
      ts ≠ [] → 0 ≤ off →
      off ≤ ((joinSp (ts.map (fun t => t.value))).length : Int) →
      ∃ n off2,
        restoreLoop (b == .chrome) ((classifyNodesGo b k ts).map descendNode)
          none off = (some n, off2) ∧
        n ∈ (classifyNodesGo b k ts).map descendNode ∧
        setStartOK n (if allowanceN (b == .chrome) n then 0 else off2) = true := by
  intro ts
  induction ts with
  | nil =>
    intro k off _ _ hne
    exact absurd rfl hne
  | cons t ts ih =>
    intro k off hval honly hne h0 hub
    have hv : t.value ≠ "" := by
      simp [allValuesNonempty] at hval
      exact hval.1
    have hval2 : allValuesNonempty ts = true := by
      simp [allValuesNonempty] at hval ⊢
      exact hval.2
    have hL : t.value.length ≠ 0 :=
      fun hz => hv (string_eq_empty_of_length _ hz)
    cases ts with
    | nil =>
      have hub2 : off ≤ (t.value.length : Int) := by
        simpa [joinSp] using hub
      have hbrk : checkBreak (.textN t.value.length) off = true := by
        simp [checkBreak]
        exact hub2
      have hsok : setStartOK (.textN t.value.length)
          (if allowanceN (b == .chrome) (.textN t.value.length) then 0
           else off) = true := by
        simp [allowanceN, setStartOK]
        exact ⟨h0, hub2⟩
      cases hinc : t.isIncomplete
      case true =>
        have hnodes : (classifyNodesGo b k [t]).map descendNode =
            [DNode.textN t.value.length] := by
          simp [classifyNodesGo, hinc, descend_contentNode b k t hv]
        refine ⟨.textN t.value.length, off, ?_, ?_, hsok⟩
        · rw [hnodes]
          exact restoreLoop_cons_none_break _ _ _ _ hbrk
        · rw [hnodes]
          exact List.mem_singleton.mpr rfl
      case false =>
        have hnodes : (classifyNodesGo b k [t]).map descendNode =
            DNode.textN t.value.length :: [descendNode (sepNode b)] := by
          simp [classifyNodesGo, hinc, descend_contentNode b k t hv]
        refine ⟨.textN t.value.length, off, ?_, ?_, hsok⟩
        · rw [hnodes]
          exact restoreLoop_cons_none_break _ _ _ _ hbrk
        · rw [hnodes]
          exact List.mem_cons_self _ _
    | cons t2 ts2 =>
      have hco : t.isIncomplete = false := by
        simp [onlyLastIncomplete] at honly
        exact honly.1
      have honly2 : onlyLastIncomplete (t2 :: ts2) = true := by
        simp [onlyLastIncomplete] at honly
        exact honly.2
      have hnodes : (classifyNodesGo b k (t :: t2 :: ts2)).map descendNode =
          DNode.textN t.value.length :: descendNode (sepNode b) ::
            (classifyNodesGo b (k + 1) (t2 :: ts2)).map descendNode := by
        simp [classifyNodesGo, hco, descend_contentNode b k t hv]
      have hq : ((joinSp ((t :: t2 :: ts2).map (fun t => t.value))).length : Int) =
          (t.value.length : Int) + 1 +
            ((joinSp ((t2 :: ts2).map (fun t => t.value))).length : Int) := by
        rw [List.map_cons, joinSp_length_cons _ _ (by simp)]
        push_cast
        ring
      by_cases hbr : off ≤ (t.value.length : Int)
      · have hbrk : checkBreak (.textN t.value.length) off = true := by
          simp [checkBreak]
          exact hbr
        refine ⟨.textN t.value.length, off, ?_, ?_, ?_⟩
        · rw [hnodes]
          exact restoreLoop_cons_none_break _ _ _ _ hbrk
        · rw [hnodes]
          exact List.mem_cons_self _ _
        · simp [allowanceN, setStartOK]
          exact ⟨h0, hbr⟩
      · push_neg at hbr
        have hbrk1 : checkBreak (.textN t.value.length) off = false := by
          simp [checkBreak]
          omega
        obtain ⟨r1, rrest, hr⟩ :
            ∃ r1 rrest, (classifyNodesGo b (k + 1) (t2 :: ts2)).map descendNode =
              r1 :: rrest := by
          cases hg : (classifyNodesGo b (k + 1) (t2 :: ts2)).map descendNode with
          | nil =>
            exfalso
            cases hinc2 : t2.isIncomplete <;>
              simp [classifyNodesGo, hinc2] at hg
          | cons a l => exact ⟨a, l, rfl⟩
        by_cases hcb : (b == Browsers.chrome) = true
        · -- Chrome: the separator descends to an element, never breaks
          have hsep : descendNode (sepNode b) = .elemN true := by
            rw [(beq_chrome_iff b).mp hcb]
            exact descend_sepNode_chrome
          obtain ⟨n, off2, hrun, hmem, hok⟩ :=
            ih (k + 1) (off - t.value.length - 1) hval2 honly2 (by simp)
              (by omega) (by rw [hq] at hub; omega)
          refine ⟨n, off2, ?_, ?_, hok⟩
          · rw [hnodes, hsep,
              restoreLoop_cons_none_cont _ _ _ _ hbrk1,
              restoreLoop_cons_some_cont _ _ _ _ _ (by simp [checkBreak]),
              hr, restoreLoop_shift, ← hr]
            have hpl : prevLen (b == Browsers.chrome)
                (DNode.textN t.value.length) = (t.value.length : Int) := rfl
            have hpl2 : prevLen (b == Browsers.chrome) (DNode.elemN true) =
                (1 : Int) := by
              simp [prevLen, hcb]
            rw [hpl, hpl2]
            exact hrun
          · rw [hnodes]
            exact List.mem_cons_of_mem _ (List.mem_cons_of_mem _ hmem)
        · -- Other browsers: the separator descends to a 1-char text node
          have hcb2 : (b == Browsers.chrome) = false := by
            simpa using hcb
          have hsep : descendNode (sepNode b) = .textN 1 :=
            descend_sepNode_other b hcb2
          by_cases hbr2 : off - t.value.length ≤ (1 : Int)
          · -- break on the separator text node
            refine ⟨.textN 1, off - t.value.length, ?_, ?_, ?_⟩
            · rw [hnodes, hsep,
                restoreLoop_cons_none_cont _ _ _ _ hbrk1]
              have : checkBreak (.textN 1)
                  (off - prevLen (b == Browsers.chrome)
                    (.textN t.value.length)) = true := by
                simp [checkBreak, prevLen]
                omega
              rw [restoreLoop_cons_some_break _ _ _ _ _ this]
              simp [prevLen]
            · rw [hnodes, hsep]
              exact List.mem_cons_of_mem _ (List.mem_cons_self _ _)
            · simp [allowanceN, setStartOK]
              omega
          · obtain ⟨n, off2, hrun, hmem, hok⟩ :=
              ih (k + 1) (off - t.value.length - 1) hval2 honly2 (by simp)
                (by omega) (by rw [hq] at hub; omega)
            refine ⟨n, off2, ?_, ?_, hok⟩
            · rw [hnodes, hsep,
                restoreLoop_cons_none_cont _ _ _ _ hbrk1,
                restoreLoop_cons_some_cont _ _ _ _ _ (by
                  simp [checkBreak, prevLen]
                  omega),
                hr, restoreLoop_shift, ← hr]
              have hpl : prevLen (b == Browsers.chrome)
                  (DNode.textN t.value.length) = (t.value.length : Int) := rfl
              have hpl2 : prevLen (b == Browsers.chrome) (DNode.textN 1) =
                  (1 : Int) := rfl
              rw [hpl, hpl2]
              exact hrun
            · rw [hnodes]
              exact List.mem_cons_of_mem _ (List.mem_cons_of_mem _ hmem)

/-- C7 (amended): for every re-render that captured a caret offset, the
offset is clamped to exactly the new logical length when it exceeds it —
unconditionally, for every token list — and, *provided every token value is
non-empty and incomplete tokens occur only in final position*, the
subsequent `restoreSelection` never throws and places the selection on one
of the container's rendered nodes.  (Without the proviso the restoration
can throw; see the counterexample.) -/
theorem C7_clamp_restore_amended :
    ∀ (b : Browsers) (tokens : List DisplayToken) (savedSel : Nat),
      (savedSel > (searchQuery tokens).length →
        (fixSavedSelection savedSel (searchQuery tokens)).1 =
          (searchQuery tokens).length) ∧
      (fixSavedSelection savedSel (searchQuery tokens)).1 ≤
        (searchQuery tokens).length ∧
      (allValuesNonempty tokens = true → onlyLastIncomplete tokens = true →
        ∃ n off2,
          restoreSelection (b == .chrome) (childDNodes b tokens)
            ((fixSavedSelection savedSel (searchQuery tokens)).1 : Int) =
            .ok (some (n, off2)) ∧
          n ∈ childDNodes b tokens) := by
  intro b tokens savedSel
  refine ⟨?_, fixSavedSelection_le _ _, ?_⟩
  · intro hgt
    simp [fixSavedSelection, hgt]
  · intro hval honly
    cases tokens with
    | nil =>
      have hfix : (fixSavedSelection savedSel (searchQuery [])).1 = 0 := by
        have hq : (searchQuery ([] : List DisplayToken)).length = 0 := rfl
        have := fixSavedSelection_le savedSel (searchQuery [])
        omega
      have hchild : childDNodes b [] = [DNode.elemN false] := by
        simp [childDNodes, classifyNodes, descend_initNode]
      refine ⟨.elemN false, 0, ?_, ?_⟩
      · rw [hchild, hfix]
        simp [restoreSelection, restoreLoop, checkBreak, allowanceN, setStartOK]
      · rw [hchild]
        exact List.mem_singleton.mpr rfl
    | cons t0 ts0 =>
      have hub : ((fixSavedSelection savedSel (searchQuery (t0 :: ts0))).1 : Int) ≤
          ((joinSp ((t0 :: ts0).map (fun t => t.value))).length : Int) := by
        have h1 := fixSavedSelection_le savedSel (searchQuery (t0 :: ts0))
        have h2 := searchQuery_length_le (t0 :: ts0)
        exact_mod_cast Nat.le_trans h1 h2
      obtain ⟨n, off2, hrun, hmem, hok⟩ :=
        restoreLoop_safe b (t0 :: ts0) 0
          ((fixSavedSelection savedSel (searchQuery (t0 :: ts0))).1 : Int)
          hval honly (by simp) (Int.natCast_nonneg _) hub
      have hchild : childDNodes b (t0 :: ts0) =
          (classifyNodesGo b 0 (t0 :: ts0)).map descendNode := by
        simp [childDNodes, classifyNodes]
      refine ⟨n, if allowanceN (b == .chrome) n then 0 else off2, ?_, ?_⟩
      · unfold restoreSelection
        rw [hchild, hrun]
        simp only [hok, if_pos]
      · rw [hchild]
        exact hmem

/-- Witness for C7 (amended): a concrete two-token render with a captured
offset beyond the new text length; the clamp (unconditional) and the safe
restoration (its proviso discharged by `decide`) evaluate as the theorem
states. -/
theorem C7_clamp_restore_amended_witness :
    (25 > (searchQuery
        [⟨"token1", "class1", false, false⟩,
         ⟨"token2", "class2", false, false⟩]).length →
      (fixSavedSelection 25 (searchQuery
        [⟨"token1", "class1", false, false⟩,
         ⟨"token2", "class2", false, false⟩])).1 =
        (searchQuery
          [⟨"token1", "class1", false, false⟩,
           ⟨"token2", "class2", false, false⟩]).length) ∧
    (fixSavedSelection 25 (searchQuery
        [⟨"token1", "class1", false, false⟩,
         ⟨"token2", "class2", false, false⟩])).1 ≤
      (searchQuery
        [⟨"token1", "class1", false, false⟩,
         ⟨"token2", "class2", false, false⟩]).length ∧
    ∃ n off2,
      restoreSelection (Browsers.chrome == Browsers.chrome)
        (childDNodes .chrome
          [⟨"token1", "class1", false, false⟩,
           ⟨"token2", "class2", false, false⟩])
        ((fixSavedSelection 25 (searchQuery
          [⟨"token1", "class1", false, false⟩,
           ⟨"token2", "class2", false, false⟩])).1 : Int) =
        .ok (some (n, off2)) ∧
      n ∈ childDNodes .chrome
        [⟨"token1", "class1", false, false⟩,
         ⟨"token2", "class2", false, false⟩] := by
  refine ⟨?_, ?_, ?_⟩
  · exact (C7_clamp_restore_amended .chrome
      [⟨"token1", "class1", false, false⟩, ⟨"token2", "class2", false, false⟩]
      25).1
  · exact (C7_clamp_restore_amended .chrome
      [⟨"token1", "class1", false, false⟩, ⟨"token2", "class2", false, false⟩]
      25).2.1
  · exact (C7_clamp_restore_amended .chrome
      [⟨"token1", "class1", false, false⟩, ⟨"token2", "class2", false, false⟩]
      25).2.2 (by decide) (by decide)

end Tokenizer
